import Mathlib

/-!
Verification development for the dashboard `StatsCollector` module
(`dashboard/modules/stats_collector/stats_collector_head.py`).

The Python code is embedded shallowly:
* Python `dict`s become association lists over `String` keys with Python's
  insertion-order semantics (`alist_insert` replaces in place or appends,
  `alist_pop` fails on an absent key the way `dict.pop(k)` raises `KeyError`).
* Exceptions become `Except PyError` / explicit error fields.
* The asyncio poll loop of `_update_node_stats` is embedded as a sequential
  fold that also records the start/finish time of every awaited call: each
  `await stub.GetNodeStats(..., timeout=2)` in the `for` loop is a single
  suspension point that completes (reply or deadline expiry) before the loop
  advances, so the awaited durations accumulate along the iteration order.
* Protobuf replies and their dict conversions (`message_to_dict` lives
  outside this module) are modelled as opaque payloads with an injective
  conversion wrapper.
-/

namespace RayStats

/-! ### Association lists with Python `dict` semantics -/

/-- `d[k]` / `d.get(k)`: first binding for `k`, if any. -/
def alist_get {α : Type} : List (String × α) → String → Option α
  | [], _ => none
  | (k', v) :: rest, k => if k' = k then some v else alist_get rest k

/-- `d[k] = v`: replace the binding in place if the key exists, else append
(Python dicts preserve insertion order). -/
def alist_insert {α : Type} : List (String × α) → String → α → List (String × α)
  | [], k, v => [(k, v)]
  | (k', v') :: rest, k, v =>
    if k' = k then (k, v) :: rest else (k', v') :: alist_insert rest k v

/-- `d.pop(k)` without a default: the remaining map when `k` is present,
`none` (a `KeyError`) when it is absent. -/
def alist_pop {α : Type} : List (String × α) → String → Option (List (String × α))
  | [], _ => none
  | (k', v) :: rest, k =>
    if k' = k then some rest else (alist_pop rest k).map (fun l => (k', v) :: l)

/-! ### Python-level primitives -/

/-- The exceptions our embedding distinguishes: `dict.pop` on an absent key,
`int()` on an unparsable string, and subscripting `None`. -/
inductive PyError
  | keyError
  | valueError
  | typeError
  deriving DecidableEq, Repr

/-- Digits of a decimal literal read left to right. -/
def digitsToNat (cs : List Char) : Nat :=
  cs.foldl (fun acc c => acc * 10 + (c.toNat - 48)) 0

/-- Strip leading and trailing whitespace from a character list. -/
def pyTrim (cs : List Char) : List Char :=
  ((cs.dropWhile Char.isWhitespace).reverse.dropWhile Char.isWhitespace).reverse

/-- `int(s)` on a string: optional sign and a nonempty run of decimal digits
(surrounding whitespace stripped), otherwise `ValueError`. -/
def pyInt (s : String) : Except PyError Int :=
  match pyTrim s.data with
  | '-' :: rest =>
    if rest ≠ [] ∧ rest.all Char.isDigit then Except.ok (-(digitsToNat rest : Int))
    else Except.error PyError.valueError
  | '+' :: rest =>
    if rest ≠ [] ∧ rest.all Char.isDigit then Except.ok (digitsToNat rest : Int)
    else Except.error PyError.valueError
  | cs =>
    if cs ≠ [] ∧ cs.all Char.isDigit then Except.ok (digitsToNat cs : Int)
    else Except.error PyError.valueError

/-! ### Node registry data model -/

/-- The fields of a node-registry record that `_update_stubs` and
`_update_node_stats` read.  `nodeManagerPort` is kept as the raw string fed to
`int(...)` so that malformed ports are representable. -/
structure NodeInfo where
  nodeManagerAddress : String
  nodeManagerPort : String
  state : String
  deriving DecidableEq, Repr

/-- A `DataSource.nodes` change notification: `old` and/or `new` carry a
`(node_id, node_info)` pair. -/
structure ChangeEvent where
  old : Option (String × NodeInfo)
  new : Option (String × NodeInfo)
  deriving DecidableEq, Repr

/-- A `NodeManagerServiceStub` over an `aiogrpc.insecure_channel(address)`.
Channel construction is lazy: it records the target string and performs no
I/O, so it succeeds for any address text. -/
structure Stub where
  address : String
  deriving DecidableEq, Repr

/-- `StatsCollector._update_stubs`: if `change.old` is set, `self._stubs.pop(node_id)`
(KeyError when absent); if `change.new` is set, build `"{address}:{int(port)}"`
(ValueError when the port is unparsable) and insert the stub. -/
def update_stubs (stubs : List (String × Stub)) (change : ChangeEvent) :
    Except PyError (List (String × Stub)) :=
  match
    (match change.old with
     | some (node_id, _) =>
       match alist_pop stubs node_id with
       | some s => Except.ok s
       | none => Except.error PyError.keyError
     | none => Except.ok stubs) with
  | Except.error e => Except.error e
  | Except.ok stubs1 =>
    match change.new with
    | some (node_id, node_info) =>
      match pyInt node_info.nodeManagerPort with
      | Except.error e => Except.error e
      | Except.ok port =>
        let address := node_info.nodeManagerAddress ++ ":" ++ toString port
        Except.ok (alist_insert stubs1 node_id ⟨address⟩)
    | none => Except.ok stubs1

/-- A throwaway node record used in concrete counterexamples. -/
def demoNode : NodeInfo := ⟨"10.0.0.1", "7001", "ALIVE"⟩

/-- A node record whose manager port is not a decimal integer. -/
def badPortNode : NodeInfo := ⟨"10.0.0.2", "abc", "ALIVE"⟩

/-! ### Stat poller (`_update_node_stats`) -/

/-- An opaque `GetNodeStats` reply message. -/
structure Reply where
  payload : String
  deriving DecidableEq, Repr

/-- `node_stats_to_dict(message)`: the stored form of a reply.
`dashboard_utils.message_to_dict` lives outside this module; it is a pure,
injective conversion of the whole message, modelled as a wrapper. -/
structure StatsDict where
  ofReply : Reply
  deriving DecidableEq, Repr

def node_stats_to_dict (r : Reply) : StatsDict := ⟨r⟩

/-- The deadline passed to every `stub.GetNodeStats(..., timeout=2)` call. -/
def statsDeadline : Nat := 2

/-- Behaviour of one peer for one request: `none` if the peer never answers,
`some (d, r)` if it would answer with `r` after `d` time units.  The function
takes the `include_memory_info` flag carried by the request. -/
def PeerBehaviour : Type := String → Bool → Option (Nat × Reply)

/-- Awaiting `GetNodeStats` under the gRPC deadline: the await completes after
`min d statsDeadline` time units, with the reply if the peer answered within
the deadline and with a deadline-exceeded error otherwise. -/
def callOutcome (b : Option (Nat × Reply)) : Nat × Option Reply :=
  match b with
  | none => (statsDeadline, none)
  | some (d, r) => if d ≤ statsDeadline then (d, some r) else (statsDeadline, none)

/-- One awaited call as it happened inside the loop: which peer, when the
request was issued, when the await completed, and whether it succeeded. -/
structure TimedCall where
  id : String
  start : Nat
  finish : Nat
  ok : Bool
  deriving DecidableEq, Repr

/-- Result of one `_update_node_stats` cycle: the node-stats map, the awaited
calls in the order the loop issued them, and the exception (if any) that
escaped the loop. -/
structure CycleResult where
  stats : List (String × StatsDict)
  calls : List TimedCall
  err : Option PyError
  deriving DecidableEq, Repr

/-- The loop body of `_update_node_stats`, iterating over `self._stubs.items()`.
For each `(node_id, stub)`: `DataSource.nodes.get(node_id)` — when the lookup
yields nothing, `node_info["state"]` subscripts `None` and the `TypeError`
escapes (it is raised outside the `try`), ending the cycle; a non-`"ALIVE"`
node is skipped; otherwise the call is awaited under the deadline, and inside
the `try` a success stores `node_stats_to_dict(reply)` while any failure is
logged and the loop moves on.  The clock `t` advances by each awaited call's
duration because the calls are awaited one after the other. -/
def update_node_stats_aux (nodes : List (String × NodeInfo)) (collect : Bool)
    (beh : PeerBehaviour) :
    List (String × Stub) → Nat → List (String × StatsDict) → List TimedCall → CycleResult
  | [], _, stats, calls => ⟨stats, calls, none⟩
  | (node_id, _) :: rest, t, stats, calls =>
    match alist_get nodes node_id with
    | none => ⟨stats, calls, some PyError.typeError⟩
    | some node_info =>
      if node_info.state ≠ "ALIVE" then
        update_node_stats_aux nodes collect beh rest t stats calls
      else
        match callOutcome (beh node_id collect) with
        | (d, some reply) =>
          update_node_stats_aux nodes collect beh rest (t + d)
            (alist_insert stats node_id (node_stats_to_dict reply))
            (calls ++ [⟨node_id, t, t + d, true⟩])
        | (d, none) =>
          update_node_stats_aux nodes collect beh rest (t + d) stats
            (calls ++ [⟨node_id, t, t + d, false⟩])

/-- One cycle of `_update_node_stats`, started at time `0` on the current
stub mapping, node registry and stored stats. -/
def update_node_stats (nodes : List (String × NodeInfo)) (collect : Bool)
    (beh : PeerBehaviour) (stubs : List (String × Stub))
    (stats : List (String × StatsDict)) : CycleResult :=
  update_node_stats_aux nodes collect beh stubs 0 stats []

/-- The awaited calls a given peer received during a cycle. -/
def callsFor (calls : List TimedCall) (id : String) : List TimedCall :=
  calls.filter (fun c => c.id = id)

/-- The spec's poll-isolation/fan-out property as a proposition about the
embedded poller: if two environments give a peer the same behaviour, that
peer's awaited call (issue time, completion time, success) is the same in
both cycles — i.e. no other peer's hanging can delay it. -/
def poll_isolation_claim : Prop :=
  ∀ (nodes : List (String × NodeInfo)) (collect : Bool) (beh beh' : PeerBehaviour)
    (stubs : List (String × Stub)) (stats : List (String × StatsDict)) (id : String),
    (∀ c, beh id c = beh' id c) →
    callsFor (update_node_stats nodes collect beh stubs stats).calls id =
      callsFor (update_node_stats nodes collect beh' stubs stats).calls id

/-- Two-node registry used in concrete poller scenarios. -/
def nodesAB : List (String × NodeInfo) :=
  [("a", ⟨"10.0.0.1", "7001", "ALIVE"⟩), ("b", ⟨"10.0.0.2", "7002", "ALIVE"⟩)]

/-- The matching stub mapping. -/
def stubsAB : List (String × Stub) := [("a", ⟨"10.0.0.1:7001"⟩), ("b", ⟨"10.0.0.2:7002"⟩)]

/-- Environment in which peer `a` never answers and peer `b` answers at once. -/
def behHangA : PeerBehaviour := fun id _ =>
  if id = "a" then none else some (0, ⟨"stats-b"⟩)

/-- Environment identical for `b`, but peer `a` answers at once. -/
def behFastA : PeerBehaviour := fun id _ =>
  if id = "a" then some (0, ⟨"stats-a"⟩) else some (0, ⟨"stats-b"⟩)

/-! ### Actor table synchronizer (`_update_actors`) -/

/-- An `ActorTableData` message: the actor id bytes plus the rest of the
record, kept opaque. -/
structure ActorInfo where
  actor_id : List Nat
  payload : String
  deriving DecidableEq, Repr

/-- `actor_table_data_to_dict(message)`: as with node stats, the external
`message_to_dict` is a pure injective conversion of the whole message. -/
structure ActorDict where
  ofData : ActorInfo
  deriving DecidableEq, Repr

def actor_table_data_to_dict (a : ActorInfo) : ActorDict := ⟨a⟩

/-- One lowercase hex digit. -/
def hexDigit (n : Nat) : Char :=
  if n < 10 then Char.ofNat (48 + n) else Char.ofNat (87 + n)

/-- `ray.utils.binary_to_hex`: `binascii.hexlify` of the id bytes, two
lowercase hex digits per byte. -/
def binary_to_hex (bs : List Nat) : String :=
  String.mk (bs.foldr (fun b acc => hexDigit (b / 16 % 16) :: hexDigit (b % 16) :: acc) [])

/-- The actor map `DataSource.actors`. -/
def ActorMap : Type := List (String × ActorDict)

/-- The `result` dict built from a successful `GetAllActorInfo` reply:
`result[binary_to_hex(actor_info.actor_id)] = actor_table_data_to_dict(actor_info)`
over the reply's records in order, starting from `{}`. -/
def buildActorMap (actors : List ActorInfo) : ActorMap :=
  actors.foldl
    (fun m a => alist_insert m (binary_to_hex a.actor_id) (actor_table_data_to_dict a)) []

/-- One attempt of the bootstrap fetch: a reply with `status.code == 0`
carrying the records, a reply with a failing status (which raises and is
caught), or a transport error from the awaited call itself. -/
inductive FetchResult
  | ok (actors : List ActorInfo)
  | badStatus
  | transportError
  deriving DecidableEq, Repr

def FetchResult.isOk : FetchResult → Bool
  | .ok _ => true
  | _ => false

/-- The bootstrap `while True` loop of `_update_actors`, run against a script
of fetch outcomes: on the first `ok` reply it resets `DataSource.actors` to
the freshly built map and breaks; on any failure it logs, sleeps and retries.
`none` means the script ran out before a success — the loop is still
retrying and the actor map was never touched. -/
def bootstrap_actors : List FetchResult → ActorMap → Option ActorMap
  | [], _ => none
  | FetchResult.ok actors :: _, _ => some (buildActorMap actors)
  | FetchResult.badStatus :: rest, m => bootstrap_actors rest m
  | FetchResult.transportError :: rest, m => bootstrap_actors rest m

/-- One pubsub message of the live phase: either it decodes to an
`ActorTableData` or decoding raises (logged and skipped). -/
inductive StreamMsg
  | good (a : ActorInfo)
  | bad
  deriving DecidableEq, Repr

/-- The live phase of `_update_actors`: each decoded message is upserted as
`DataSource.actors[binary_to_hex(actor_info.actor_id)] = actor_table_data_to_dict(actor_info)`;
decode failures leave the map unchanged. -/
def update_actors_live : ActorMap → List StreamMsg → ActorMap
  | m, [] => m
  | m, StreamMsg.good a :: rest =>
    update_actors_live
      (alist_insert m (binary_to_hex a.actor_id) (actor_table_data_to_dict a)) rest
  | m, StreamMsg.bad :: rest => update_actors_live m rest

/-! ### Log relay (`_update_log_info`) -/

/-- A decoded log pubsub message: `json.loads` gave a dict with `"ip"`,
`"pid"` (stringified before use) and `"lines"`. -/
structure LogData where
  ip : String
  pid : Int
  lines : List String
  deriving DecidableEq, Repr

/-- `DataSource.ip_and_pid_to_logs`: ip → pid → lines. -/
def LogStore : Type := List (String × List (String × List String))

/-- The loop body of `_update_log_info` for one decoded message:
`logs_for_ip = store.get(ip, {})`, `logs_for_pid = logs_for_ip.get(pid, [])`,
`logs_for_pid.extend(lines)`, write both levels back. -/
def update_log_info_step (store : LogStore) (data : LogData) : LogStore :=
  let ip := data.ip
  let pid := toString data.pid
  let logs_for_ip := (alist_get store ip).getD []
  let logs_for_pid := (alist_get logs_for_ip pid).getD []
  let logs_for_pid2 := logs_for_pid ++ data.lines
  let logs_for_ip2 := alist_insert logs_for_ip pid logs_for_pid2
  alist_insert store ip logs_for_ip2

/-- The relay over a message stream; `none` stands for a message whose
decoding raised (logged and skipped). -/
def update_log_info (store : LogStore) (msgs : List (Option LogData)) : LogStore :=
  msgs.foldl
    (fun s m => match m with | some d => update_log_info_step s d | none => s) store

/-- The lines stored for `(ip, pid)`. -/
def logsAt (store : LogStore) (ip pid : String) : Option (List String) :=
  (alist_get store ip).bind (fun m => alist_get m pid)

/-! ### Error relay (`_update_error_info`) -/

/-- A decoded `ErrorTableData` message. -/
structure ErrorData where
  error_message : String
  timestamp : Int
  type : String
  deriving DecidableEq, Repr

/-- A stored error record. -/
structure ErrRecord where
  message : String
  timestamp : Int
  type : String
  deriving DecidableEq, Repr

/-- `DataSource.ip_and_pid_to_errors`: ip → pid → records. -/
def ErrStore : Type := List (String × List (String × List ErrRecord))

/-- One attempt to match the regex `\x1b\[\d+m` at the head of the text:
on success, the remainder after the match.  `\d+` is a maximal nonempty digit
run (a digit is never `m`, so greediness cannot backtrack). -/
def matchAnsi : List Char → Option (List Char)
  | '\x1b' :: '[' :: rest =>
    let digits := rest.takeWhile Char.isDigit
    let after := rest.dropWhile Char.isDigit
    if digits.isEmpty then none
    else
      match after with
      | 'm' :: rest2 => some rest2
      | _ => none
  | _ => none

/-- `re.sub(r"\x1b\[\d+m", "", message)`: scan left to right, delete each
leftmost non-overlapping match, keep every other character.  Fuelled by the
text length (each step consumes at least one character). -/
def stripAnsiAux : Nat → List Char → List Char
  | 0, cs => cs
  | fuel + 1, cs =>
    match cs with
    | [] => []
    | c :: rest =>
      match matchAnsi (c :: rest) with
      | some rest2 => stripAnsiAux fuel rest2
      | none => c :: stripAnsiAux fuel rest

def stripAnsi (s : String) : String :=
  String.mk (stripAnsiAux s.data.length s.data)

/-- Drop an exact literal prefix, or fail. -/
def dropLiteral : List Char → List Char → Option (List Char)
  | [], cs => some cs
  | _ :: _, [] => none
  | l :: ls, c :: cs => if c = l then dropLiteral ls cs else none

/-- One attempt to match `\(pid=(\d+), ip=(.*?)\)` at the head of the text:
the literal `(pid=`, a maximal nonempty digit run (greediness cannot
backtrack into the following `,`), the literal `, ip=`, then the lazy `(.*?)`
stops at the first `)` — consuming only non-newline characters, since `.`
does not match a newline. -/
def matchPidIpAt (cs : List Char) : Option (String × String) :=
  match dropLiteral "(pid=".data cs with
  | none => none
  | some cs1 =>
    let digits := cs1.takeWhile Char.isDigit
    let cs2 := cs1.dropWhile Char.isDigit
    if digits.isEmpty then none
    else
      match dropLiteral ", ip=".data cs2 with
      | none => none
      | some cs3 =>
        let ip := cs3.takeWhile (fun c => c != ')' && c != '\n')
        let cs4 := cs3.dropWhile (fun c => c != ')' && c != '\n')
        match cs4 with
        | ')' :: _ => some (String.mk digits, String.mk ip)
        | _ => none

/-- `re.search(r"\(pid=(\d+), ip=(.*?)\)", message)`: the leftmost position
at which the pattern matches, yielding `(pid, ip)`; `none` when no position
matches. -/
def searchPidIp : List Char → Option (String × String)
  | [] => none
  | c :: rest =>
    match matchPidIpAt (c :: rest) with
    | some r => some r
    | none => searchPidIp rest

/-- The loop body of `_update_error_info` for one decoded message: strip the
ANSI colour codes, search for `(pid=..., ip=...)`; on a match append the
normalized record under `(ip, pid)` (both levels created lazily), otherwise
store nothing. -/
def update_error_info_step (store : ErrStore) (error_data : ErrorData) : ErrStore :=
  let message := stripAnsi error_data.error_message
  match searchPidIp message.data with
  | some (pid, ip) =>
    let errs_for_ip := (alist_get store ip).getD []
    let pid_errors := (alist_get errs_for_ip pid).getD []
    let pid_errors2 :=
      pid_errors ++ [⟨message, error_data.timestamp, error_data.type⟩]
    alist_insert store ip (alist_insert errs_for_ip pid pid_errors2)
  | none => store

/-- The records stored for `(ip, pid)`. -/
def errorsAt (store : ErrStore) (ip pid : String) : Option (List ErrRecord) :=
  (alist_get store ip).bind (fun m => alist_get m pid)

/-! ### Memory-info toggle (`set_fetch_memory_info`) -/

/-- The payload of `dashboard_utils.rest_response` as far as this handler
sets it: the success flag and the message. -/
structure RestResponse where
  success : Bool
  message : String
  deriving DecidableEq, Repr

/-- `StatsCollector.set_fetch_memory_info`: the new value of
`self._collect_memory_info` together with the response.  Only the exact
strings `"true"` and `"false"` set the flag; anything else answers a failure
response and leaves the flag as it was. -/
def set_fetch_memory_info (collect_memory_info : Bool) (should_fetch : String) :
    Bool × RestResponse :=
  if should_fetch = "true" then
    (true, ⟨true, "Successfully set fetching to " ++ should_fetch⟩)
  else if should_fetch = "false" then
    (false, ⟨true, "Successfully set fetching to " ++ should_fetch⟩)
  else
    (collect_memory_info, ⟨false, "Unknown argument to set_fetch " ++ should_fetch⟩)

/-! ### Basic lemmas about the store operations -/

theorem alist_get_insert_self {α : Type} (l : List (String × α)) (k : String) (v : α) :
    alist_get (alist_insert l k v) k = some v := by
  induction l with
  | nil => simp [alist_insert, alist_get]
  | cons p rest ih =>
    by_cases h : p.1 = k
    · simp [alist_insert, alist_get, h]
    · simp [alist_insert, alist_get, h, ih]

theorem alist_get_insert_ne {α : Type} (l : List (String × α)) (k k' : String) (v : α)
    (hne : k ≠ k') : alist_get (alist_insert l k v) k' = alist_get l k' := by
  induction l with
  | nil => simp [alist_insert, alist_get, hne]
  | cons p rest ih =>
    by_cases h : p.1 = k
    · simp [alist_insert, alist_get, h, hne, Ne.symm hne]
    · simp only [alist_insert, h, if_false, alist_get]
      by_cases h' : p.1 = k'
      · simp [h']
      · simp [h', ih]

/-! ### Peer Registry Synchronizer (claims C1, C2) -/

/-- C1 counterexample: processing a `ChangeEvent` whose `old` slot names a
node with no stored handle is not a no-op — `self._stubs.pop(node_id)` has no
default, so the event processing raises `KeyError` instead of leaving the
mapping unchanged. -/
theorem update_stubs_absent_old_raises :
    update_stubs [] ⟨some ("n1", demoNode), none⟩ = Except.error PyError.keyError := rfl

/-- C1 (amended): for an event whose `old` slot is set, the handle for that
`NodeId` is removed when one is stored (the mapping becomes the popped
remainder), but when no handle is stored the removal is not a no-op: the
event processing raises `KeyError`. -/
theorem update_stubs_old_removal (stubs : List (String × Stub)) (id : String)
    (info : NodeInfo) :
    (∀ s, alist_pop stubs id = some s →
      update_stubs stubs ⟨some (id, info), none⟩ = Except.ok s) ∧
    (alist_pop stubs id = none →
      update_stubs stubs ⟨some (id, info), none⟩ = Except.error PyError.keyError) := by
  constructor
  · intro s h
    simp [update_stubs, h]
  · intro h
    simp [update_stubs, h]

/-- C1 witness: both branches of `update_stubs_old_removal` at concrete
inputs — a stored handle is removed, an absent one raises. -/
theorem update_stubs_old_removal_witness :
    update_stubs [("n1", ⟨"10.0.0.1:7001"⟩)] ⟨some ("n1", demoNode), none⟩ =
        Except.ok [] ∧
      update_stubs [("n2", ⟨"10.0.0.2:7002"⟩)] ⟨some ("n1", demoNode), none⟩ =
        Except.error PyError.keyError :=
  ⟨(update_stubs_old_removal [("n1", ⟨"10.0.0.1:7001"⟩)] "n1" demoNode).1 [] rfl,
   (update_stubs_old_removal [("n2", ⟨"10.0.0.2:7002"⟩)] "n1" demoNode).2 rfl⟩

/-- C2 counterexample: a `new` event whose record carries the unparsable
manager port `"abc"` is not "skipped and logged": `int(...)` raises
`ValueError`, which escapes `_update_stubs` (there is no handler around it),
so the event is not processed without raising. -/
theorem update_stubs_bad_port_raises :
    update_stubs [] ⟨none, some ("n2", badPortNode)⟩ = Except.error PyError.valueError := rfl

/-- C2 (amended): for an event whose `new` slot is set, a malformed
`managerPort` makes the event processing raise `ValueError` — nothing is
logged-and-skipped, and no entry is created from that event; a malformed
`managerAddress`, by contrast, does not prevent handle creation at all:
channel construction is lazy, so for any address text a handle for
`"{address}:{port}"` is inserted whenever the port parses. -/
theorem update_stubs_new_malformed (stubs : List (String × Stub)) (id : String)
    (info : NodeInfo) :
    (pyInt info.nodeManagerPort = Except.error PyError.valueError →
      update_stubs stubs ⟨none, some (id, info)⟩ = Except.error PyError.valueError) ∧
    (∀ port, pyInt info.nodeManagerPort = Except.ok port →
      update_stubs stubs ⟨none, some (id, info)⟩ =
        Except.ok (alist_insert stubs id
          ⟨info.nodeManagerAddress ++ ":" ++ toString port⟩)) := by
  constructor
  · intro h
    simp [update_stubs, h]
  · intro port h
    simp [update_stubs, h]

/-- C2 witness: both branches of `update_stubs_new_malformed` at concrete
inputs — the `"abc"` port raises, and an arbitrary (even nonsensical)
address string still yields a handle when the port parses. -/
theorem update_stubs_new_malformed_witness :
    update_stubs [] ⟨none, some ("n2", badPortNode)⟩ = Except.error PyError.valueError ∧
      update_stubs [] ⟨none, some ("n3", ⟨"not an address!!", "7003", "ALIVE"⟩)⟩ =
        Except.ok [("n3", ⟨"not an address!!:7003"⟩)] :=
  ⟨(update_stubs_new_malformed [] "n2" badPortNode).1 rfl,
   (update_stubs_new_malformed [] "n3" ⟨"not an address!!", "7003", "ALIVE"⟩).2
     7003 rfl⟩

/-! ### Memory-info toggle (claim C9) -/

/-- C9: the toggle accepts exactly the strings `"true"` and `"false"`, which
set the flag to the corresponding boolean with a success response; any other
value yields a failure response and leaves the flag unchanged. -/
theorem set_fetch_memory_info_spec (flag : Bool) (s : String) :
    set_fetch_memory_info flag "true" =
        (true, ⟨true, "Successfully set fetching to true"⟩) ∧
      set_fetch_memory_info flag "false" =
        (false, ⟨true, "Successfully set fetching to false"⟩) ∧
      (s ≠ "true" → s ≠ "false" →
        set_fetch_memory_info flag s =
          (flag, ⟨false, "Unknown argument to set_fetch " ++ s⟩)) := by
  refine ⟨rfl, rfl, fun h1 h2 => ?_⟩
  simp [set_fetch_memory_info, h1, h2]

/-- C9 witness: the unknown value `"maybe"` fails and leaves the flag
(`true` here) unchanged, while `"false"` resets it. -/
theorem set_fetch_memory_info_spec_witness :
    set_fetch_memory_info true "false" =
        (false, ⟨true, "Successfully set fetching to false"⟩) ∧
      set_fetch_memory_info true "maybe" =
        (true, ⟨false, "Unknown argument to set_fetch maybe"⟩) :=
  ⟨(set_fetch_memory_info_spec true "maybe").2.1,
   (set_fetch_memory_info_spec true "maybe").2.2 (by decide) (by decide)⟩

/-! ### Stat Poller (claims C3, C4, C10) -/

/-- C3 counterexample: the per-peer polls are not concurrent.  With peers
`a`, `b` both `ALIVE`, changing only `a`'s behaviour from answering at once
to never answering moves `b`'s awaited call from `[0, 0]` to `[2, 2]`: `b`'s
request is issued only after `a`'s deadline expires, so a hanging peer delays
the stats update of another peer in the same cycle, refuting the
fan-out/fan-in isolation property. -/
theorem stat_poller_not_isolated : ¬ poll_isolation_claim := by
  intro h
  have hb := h nodesAB false behHangA behFastA stubsAB [] "b" (fun _ => rfl)
  have h1 : callsFor (update_node_stats nodesAB false behHangA stubsAB []).calls "b" =
      [⟨"b", 2, 2, true⟩] := by decide
  have h2 : callsFor (update_node_stats nodesAB false behFastA stubsAB []).calls "b" =
      [⟨"b", 0, 0, true⟩] := by decide
  rw [h1, h2] at hb
  exact absurd hb (by decide)

/-- C3 (amended): within one cycle the requests are issued sequentially, one
peer at a time, each awaited under its own deadline before the next request
is issued.  A peer whose call never returns within its deadline still does
not *fail* any other peer's stats update — the failure is caught per peer and
iteration continues, so a later peer's reply is stored — but it *delays*
every later peer: the later peer's request is issued only at the time the
earlier await completes (up to the deadline per hanging peer). -/
theorem stat_poller_sequential (a b : String) (ia ib : NodeInfo) (sa sb : Stub)
    (collect : Bool) (beh : PeerBehaviour) (stats : List (String × StatsDict))
    (db : Nat) (r : Reply) (hab : a ≠ b) (ha : ia.state = "ALIVE")
    (hb : ib.state = "ALIVE") (hbeh : beh b collect = some (db, r))
    (hdb : db ≤ statsDeadline) :
    alist_get (update_node_stats [(a, ia), (b, ib)] collect beh [(a, sa), (b, sb)]
        stats).stats b = some (node_stats_to_dict r) ∧
      (update_node_stats [(a, ia), (b, ib)] collect beh [(a, sa), (b, sb)] stats).calls =
        [⟨a, 0, (callOutcome (beh a collect)).1, ((callOutcome (beh a collect)).2).isSome⟩,
         ⟨b, (callOutcome (beh a collect)).1, (callOutcome (beh a collect)).1 + db, true⟩] ∧
      (update_node_stats [(a, ia), (b, ib)] collect beh [(a, sa), (b, sb)] stats).err =
        none := by
  have hcb : callOutcome (beh b collect) = (db, some r) := by
    rw [hbeh]
    simp [callOutcome, hdb]
  rcases hca : callOutcome (beh a collect) with ⟨d, rep⟩
  cases rep with
  | some ra =>
    simp [update_node_stats, update_node_stats_aux, alist_get, hab, Ne.symm hab, ha, hb,
      hca, hcb, alist_get_insert_self]
  | none =>
    simp [update_node_stats, update_node_stats_aux, alist_get, hab, Ne.symm hab, ha, hb,
      hca, hcb, alist_get_insert_self]

/-- C3 witness: `stat_poller_sequential` at the concrete two-node scenario in
which peer `a` hangs — peer `b`'s reply is still stored, but its call runs
over `[2, 2]` instead of starting at `0`. -/
theorem stat_poller_sequential_witness :
    alist_get (update_node_stats nodesAB false behHangA stubsAB []).stats "b" =
        some (node_stats_to_dict ⟨"stats-b"⟩) ∧
      (update_node_stats nodesAB false behHangA stubsAB []).calls =
        [⟨"a", 0, (callOutcome (behHangA "a" false)).1,
            ((callOutcome (behHangA "a" false)).2).isSome⟩,
         ⟨"b", (callOutcome (behHangA "a" false)).1,
            (callOutcome (behHangA "a" false)).1 + 0, true⟩] ∧
      (update_node_stats nodesAB false behHangA stubsAB []).err = none :=
  stat_poller_sequential "a" "b" ⟨"10.0.0.1", "7001", "ALIVE"⟩
    ⟨"10.0.0.2", "7002", "ALIVE"⟩ ⟨"10.0.0.1:7001"⟩ ⟨"10.0.0.2:7002"⟩ false behHangA []
    0 ⟨"stats-b"⟩ (by decide) rfl rfl rfl (by decide)

/-- Peers outside the stub list leave their stats entry untouched. -/
theorem update_aux_stats_get_notmem (nodes : List (String × NodeInfo)) (collect : Bool)
    (beh : PeerBehaviour) (id : String) :
    ∀ (stubs : List (String × Stub)) (t : Nat) (stats : List (String × StatsDict))
      (calls : List TimedCall), id ∉ stubs.map Prod.fst →
      alist_get (update_node_stats_aux nodes collect beh stubs t stats calls).stats id =
        alist_get stats id := by
  intro stubs
  induction stubs with
  | nil => intro t stats calls _; rfl
  | cons p rest ih =>
    rcases p with ⟨nid, s⟩
    intro t stats calls hmem
    simp only [List.map_cons, List.mem_cons, not_or] at hmem
    obtain ⟨hne, hrest⟩ := hmem
    rcases hn : alist_get nodes nid with _ | info
    · simp only [update_node_stats_aux, hn]
    · rcases hc : callOutcome (beh nid collect) with ⟨d, rep⟩
      by_cases hst : info.state = "ALIVE"
      · cases rep
        · simp only [update_node_stats_aux, hn, hc]
          rw [if_neg (by simp [hst])]
          exact ih _ _ _ hrest
        · simp only [update_node_stats_aux, hn, hc]
          rw [if_neg (by simp [hst])]
          rw [ih _ _ _ hrest, alist_get_insert_ne _ _ _ _ (Ne.symm hne)]
      · simp only [update_node_stats_aux, hn]
        rw [if_pos (by simp [hst])]
        exact ih _ _ _ hrest

/-- If `id` is one of the polled stubs, its node is registered and `ALIVE`,
and its call succeeds with reply `r` within the deadline, then after the
cycle the stored entry for `id` is exactly `node_stats_to_dict r` —
regardless of what was stored before and of the other peers' behaviour
(provided every polled stub has a registered node, so the cycle is not
aborted). -/
theorem update_aux_stats_get (nodes : List (String × NodeInfo)) (collect : Bool)
    (beh : PeerBehaviour) (id : String) (info : NodeInfo) (d : Nat) (r : Reply)
    (hinfo : alist_get nodes id = some info) (halive : info.state = "ALIVE")
    (hcall : callOutcome (beh id collect) = (d, some r)) :
    ∀ (stubs : List (String × Stub)) (t : Nat) (stats : List (String × StatsDict))
      (calls : List TimedCall),
      (stubs.map Prod.fst).Nodup →
      (∀ p ∈ stubs, (alist_get nodes p.1).isSome = true) →
      id ∈ stubs.map Prod.fst →
      alist_get (update_node_stats_aux nodes collect beh stubs t stats calls).stats id =
        some (node_stats_to_dict r) := by
  intro stubs
  induction stubs with
  | nil => intro t stats calls _ _ h; simp at h
  | cons p rest ih =>
    rcases p with ⟨nid, s⟩
    intro t stats calls hnodup hall hmem
    simp only [List.map_cons, List.nodup_cons] at hnodup
    obtain ⟨hnid, hnodup'⟩ := hnodup
    have hall' : ∀ p ∈ rest, (alist_get nodes p.1).isSome = true :=
      fun p hp => hall p (by simp [hp])
    simp only [List.map_cons, List.mem_cons] at hmem
    rcases hmem with heq | hmem
    · subst heq
      simp only [update_node_stats_aux, hinfo]
      rw [if_neg (by simp [halive])]
      simp only [hcall]
      rw [update_aux_stats_get_notmem nodes collect beh id rest _ _ _ hnid,
        alist_get_insert_self]
    · have hne : id ≠ nid := fun h => hnid (h ▸ hmem)
      have hhead := hall (nid, s) (by simp)
      rcases hsome : alist_get nodes nid with _ | ninfo
      · rw [hsome] at hhead
        simp at hhead
      · simp only [update_node_stats_aux, hsome]
        by_cases hst : ninfo.state = "ALIVE"
        · rw [if_neg (by simp [hst])]
          rcases hc : callOutcome (beh nid collect) with ⟨dn, repn⟩
          cases repn
          · simp only [hc]
            exact ih _ _ _ hnodup' hall' hmem
          · simp only [hc]
            exact ih _ _ _ hnodup' hall' hmem
        · rw [if_pos (by simp [hst])]
          exact ih _ _ _ hnodup' hall' hmem

/-- C4: a successful poll replaces the node's stats entry wholesale — after
two successful polls of `id` (first reply `r1`, second reply `r2`), the
stored entry equals exactly `node_stats_to_dict r2`, with nothing of `r1`
surviving, whatever was stored before the first poll. -/
theorem node_stats_second_poll_replaces (nodes : List (String × NodeInfo))
    (collect : Bool) (beh1 beh2 : PeerBehaviour) (stubs : List (String × Stub))
    (stats : List (String × StatsDict)) (id : String) (info : NodeInfo)
    (d1 d2 : Nat) (r1 r2 : Reply)
    (hnodup : (stubs.map Prod.fst).Nodup)
    (hall : ∀ p ∈ stubs, (alist_get nodes p.1).isSome = true)
    (hmem : id ∈ stubs.map Prod.fst)
    (hinfo : alist_get nodes id = some info) (halive : info.state = "ALIVE")
    (hcall1 : callOutcome (beh1 id collect) = (d1, some r1))
    (hcall2 : callOutcome (beh2 id collect) = (d2, some r2)) :
    alist_get (update_node_stats nodes collect beh2 stubs
        (update_node_stats nodes collect beh1 stubs stats).stats).stats id =
      some (node_stats_to_dict r2) :=
  update_aux_stats_get nodes collect beh2 id info d2 r2 hinfo halive hcall2
    stubs 0 _ [] hnodup hall hmem

/-- C4 witness: `node_stats_second_poll_replaces` on a one-node cluster where
the first poll returns `"r1"` and the second `"r2"`: the stored entry is the
second reply's dict. -/
theorem node_stats_second_poll_replaces_witness :
    alist_get (update_node_stats [("a", ⟨"10.0.0.1", "7001", "ALIVE"⟩)] false
        (fun _ _ => some (0, ⟨"r2"⟩)) [("a", ⟨"10.0.0.1:7001"⟩)]
        (update_node_stats [("a", ⟨"10.0.0.1", "7001", "ALIVE"⟩)] false
          (fun _ _ => some (0, ⟨"r1"⟩)) [("a", ⟨"10.0.0.1:7001"⟩)] []).stats).stats "a" =
      some (node_stats_to_dict ⟨"r2"⟩) :=
  node_stats_second_poll_replaces [("a", ⟨"10.0.0.1", "7001", "ALIVE"⟩)] false
    (fun _ _ => some (0, ⟨"r1"⟩)) (fun _ _ => some (0, ⟨"r2"⟩))
    [("a", ⟨"10.0.0.1:7001"⟩)] [] "a" ⟨"10.0.0.1", "7001", "ALIVE"⟩ 0 0 ⟨"r1"⟩ ⟨"r2"⟩
    (by decide) (by decide) (by decide) rfl rfl rfl rfl

/-- Appending stubs after one whose node is unregistered: the cycle runs the
clean prefix exactly as before, then raises `TypeError` at the unregistered
peer; the suffix is never reached. -/
theorem update_aux_append_missing (nodes : List (String × NodeInfo)) (collect : Bool)
    (beh : PeerBehaviour) (bad : String) (bstub : Stub) (s2 : List (String × Stub))
    (hbad : alist_get nodes bad = none) :
    ∀ (s1 : List (String × Stub)) (t : Nat) (stats : List (String × StatsDict))
      (calls : List TimedCall),
      (update_node_stats_aux nodes collect beh s1 t stats calls).err = none →
      update_node_stats_aux nodes collect beh (s1 ++ (bad, bstub) :: s2) t stats calls =
        ⟨(update_node_stats_aux nodes collect beh s1 t stats calls).stats,
         (update_node_stats_aux nodes collect beh s1 t stats calls).calls,
         some PyError.typeError⟩ := by
  intro s1
  induction s1 with
  | nil =>
    intro t stats calls _
    simp [update_node_stats_aux, hbad]
  | cons p rest ih =>
    rcases p with ⟨nid, s⟩
    intro t stats calls herr
    rcases hsome : alist_get nodes nid with _ | ninfo
    · simp [update_node_stats_aux, hsome] at herr
    · rcases hc : callOutcome (beh nid collect) with ⟨dn, repn⟩
      by_cases hst : ninfo.state = "ALIVE"
      · have hcond : ¬ (ninfo.state ≠ "ALIVE") := by simp [hst]
        cases repn
        · simp only [List.cons_append, update_node_stats_aux, hsome, hc,
            if_neg hcond] at herr ⊢
          exact ih _ _ _ herr
        · simp only [List.cons_append, update_node_stats_aux, hsome, hc,
            if_neg hcond] at herr ⊢
          exact ih _ _ _ herr
      · have hcond : ninfo.state ≠ "ALIVE" := hst
        simp only [List.cons_append, update_node_stats_aux, hsome,
          if_pos hcond] at herr ⊢
        exact ih _ _ _ herr

/-- Every call the cycle issues is either inherited from the accumulator or
addressed to one of the listed stubs. -/
theorem update_aux_calls_ids (nodes : List (String × NodeInfo)) (collect : Bool)
    (beh : PeerBehaviour) :
    ∀ (stubs : List (String × Stub)) (t : Nat) (stats : List (String × StatsDict))
      (calls : List TimedCall),
      ∀ c ∈ (update_node_stats_aux nodes collect beh stubs t stats calls).calls,
        c ∈ calls ∨ c.id ∈ stubs.map Prod.fst := by
  intro stubs
  induction stubs with
  | nil => intro t stats calls c hc; exact Or.inl hc
  | cons p rest ih =>
    rcases p with ⟨nid, s⟩
    intro t stats calls c hc
    rcases hsome : alist_get nodes nid with _ | ninfo
    · simp only [update_node_stats_aux, hsome] at hc
      exact Or.inl hc
    · rcases hcout : callOutcome (beh nid collect) with ⟨dn, repn⟩
      by_cases hst : ninfo.state = "ALIVE"
      · cases repn with
        | none =>
          simp only [update_node_stats_aux, hsome, hcout] at hc
          rw [if_neg (by simp [hst])] at hc
          rcases ih _ _ _ c hc with h | h
          · rcases List.mem_append.mp h with h' | h'
            · exact Or.inl h'
            · right
              simp only [List.mem_singleton] at h'
              subst h'
              simp
          · right
            simp [h]
        | some rep =>
          simp only [update_node_stats_aux, hsome, hcout] at hc
          rw [if_neg (by simp [hst])] at hc
          rcases ih _ _ _ c hc with h | h
          · rcases List.mem_append.mp h with h' | h'
            · exact Or.inl h'
            · right
              simp only [List.mem_singleton] at h'
              subst h'
              simp
          · right
            simp [h]
      · simp only [update_node_stats_aux, hsome] at hc
        rw [if_pos (by simp [hst])] at hc
        rcases ih _ _ _ c hc with h | h
        · exact Or.inl h
        · right
          simp [h]

/-- C10: the per-peer `try` covers only the awaited call, the dict conversion
and the store write.  `DataSource.nodes.get(node_id)` is dereferenced outside
it, so a stub whose `NodeId` has no node record makes the cycle raise
`TypeError` right there: the clean prefix `s1` is processed exactly as it
would have been on its own, and no peer after the unregistered one is
polled. -/
theorem node_stats_missing_node_aborts (nodes : List (String × NodeInfo))
    (collect : Bool) (beh : PeerBehaviour) (s1 : List (String × Stub)) (bad : String)
    (bstub : Stub) (s2 : List (String × Stub)) (stats : List (String × StatsDict))
    (hbad : alist_get nodes bad = none)
    (herr : (update_node_stats nodes collect beh s1 stats).err = none) :
    update_node_stats nodes collect beh (s1 ++ (bad, bstub) :: s2) stats =
        ⟨(update_node_stats nodes collect beh s1 stats).stats,
         (update_node_stats nodes collect beh s1 stats).calls,
         some PyError.typeError⟩ ∧
      ∀ c ∈ (update_node_stats nodes collect beh (s1 ++ (bad, bstub) :: s2) stats).calls,
        c.id ∈ s1.map Prod.fst := by
  have h1 :=
    update_aux_append_missing nodes collect beh bad bstub s2 hbad s1 0 stats [] herr
  refine ⟨h1, fun c hc => ?_⟩
  simp only [update_node_stats] at hc
  rw [h1] at hc
  rcases update_aux_calls_ids nodes collect beh s1 0 stats [] c hc with h | h
  · simp at h
  · exact h

/-- C10 witness: with the registry `nodesAB`, polling stubs
`[a, x, b]` where `x` is unregistered aborts after `a`: `a`'s reply is
stored, the error is a `TypeError`, and `b` is never polled. -/
theorem node_stats_missing_node_aborts_witness :
    update_node_stats nodesAB false behFastA
          ([("a", ⟨"10.0.0.1:7001"⟩)] ++ ("x", ⟨"10.0.0.9:7009"⟩) ::
            [("b", ⟨"10.0.0.2:7002"⟩)]) [] =
        ⟨(update_node_stats nodesAB false behFastA [("a", ⟨"10.0.0.1:7001"⟩)] []).stats,
         (update_node_stats nodesAB false behFastA [("a", ⟨"10.0.0.1:7001"⟩)] []).calls,
         some PyError.typeError⟩ ∧
      ∀ c ∈ (update_node_stats nodesAB false behFastA
          ([("a", ⟨"10.0.0.1:7001"⟩)] ++ ("x", ⟨"10.0.0.9:7009"⟩) ::
            [("b", ⟨"10.0.0.2:7002"⟩)]) []).calls,
        c.id ∈ [("a", (⟨"10.0.0.1:7001"⟩ : Stub))].map Prod.fst :=
  node_stats_missing_node_aborts nodesAB false behFastA [("a", ⟨"10.0.0.1:7001"⟩)] "x"
    ⟨"10.0.0.9:7009"⟩ [("b", ⟨"10.0.0.2:7002"⟩)] [] (by decide) (by decide)

/-! ### Actor Table Synchronizer (claims C5, C6) -/

/-- C5: however many times the bulk fetch fails (`N` failed attempts of
either kind), a success on the `N+1`-th attempt makes the bootstrap loop exit
with the actor map equal exactly to the successful reply's records keyed by
hex `ActorId` — independent of the map's prior contents and of the failed
attempts, which leave no residue. -/
theorem bootstrap_retry_eventually_resets (failures : List FetchResult)
    (actors : List ActorInfo) (init : ActorMap)
    (hfail : ∀ f ∈ failures, f.isOk = false) :
    bootstrap_actors (failures ++ [FetchResult.ok actors]) init =
      some (buildActorMap actors) := by
  induction failures with
  | nil => rfl
  | cons f rest ih =>
    have hrest : ∀ g ∈ rest, g.isOk = false := fun g hg => hfail g (by simp [hg])
    cases f with
    | ok a => exact absurd (hfail (FetchResult.ok a) (by simp)) (by simp [FetchResult.isOk])
    | badStatus => exact ih hrest
    | transportError => exact ih hrest

/-- C5 witness: two failures (one transport error, one bad status) followed
by a success, starting from a non-empty map: the map becomes exactly the
reply's single record and the stale entry is gone. -/
theorem bootstrap_retry_eventually_resets_witness :
    bootstrap_actors
        [FetchResult.transportError, FetchResult.badStatus,
          FetchResult.ok [⟨[1, 2], "actor-v1"⟩]]
        [("ff", ⟨⟨[255], "stale"⟩⟩)] =
      some (buildActorMap [⟨[1, 2], "actor-v1"⟩]) :=
  bootstrap_retry_eventually_resets [FetchResult.transportError, FetchResult.badStatus]
    [⟨[1, 2], "actor-v1"⟩] [("ff", ⟨⟨[255], "stale"⟩⟩)] (by decide)

/-- C6: in the live phase each decoded stream message fully replaces its
actor's entry: after a bootstrap snapshot containing actor `v1` and a stream
event carrying `v2` for the same `ActorId`, the stored record is exactly
`actor_table_data_to_dict v2` — no field of `v1` survives. -/
theorem actor_stream_upsert_replaces (v1 v2 : ActorInfo)
    (hid : v1.actor_id = v2.actor_id) :
    alist_get (update_actors_live (buildActorMap [v1]) [StreamMsg.good v2])
        (binary_to_hex v2.actor_id) = some (actor_table_data_to_dict v2) := by
  simp only [buildActorMap, List.foldl, update_actors_live, hid]
  exact alist_get_insert_self _ _ _

/-- C6 witness: `actor_stream_upsert_replaces` for actor id `0102` at
versions `"v1"` then `"v2"`: the stored record is `v2`'s. -/
theorem actor_stream_upsert_replaces_witness :
    alist_get (update_actors_live (buildActorMap [⟨[1, 2], "v1"⟩])
        [StreamMsg.good ⟨[1, 2], "v2"⟩]) (binary_to_hex [1, 2]) =
      some (actor_table_data_to_dict ⟨[1, 2], "v2"⟩) :=
  actor_stream_upsert_replaces ⟨[1, 2], "v1"⟩ ⟨[1, 2], "v2"⟩ rfl

/-! ### Log Relay (claim C7) -/

/-- C7: each decoded log batch appends its lines to the end of the stored
sequence for `(host, pid)` — created lazily on first write — preserving
arrival order; in particular batches `["a", "b"]` then `["c"]` for the same
key leave exactly `["a", "b", "c"]`. -/
theorem log_relay_appends_in_order :
    (∀ (store : LogStore) (data : LogData),
      logsAt (update_log_info_step store data) data.ip (toString data.pid) =
        some (((alist_get ((alist_get store data.ip).getD [])
          (toString data.pid)).getD []) ++ data.lines)) ∧
      logsAt (update_log_info []
          [some ⟨"host1", 5, ["a", "b"]⟩, some ⟨"host1", 5, ["c"]⟩]) "host1" "5" =
        some ["a", "b", "c"] := by
  constructor
  · intro store data
    simp [update_log_info_step, logsAt, alist_get_insert_self]
  · rfl

/-! ### Error Relay (claim C8) -/

/-- C8: the colour-coded message
`"\x1b[31mFailure (pid=123, ip=10.0.0.5) happened\x1b[0m"` yields exactly one
record, keyed `ip = "10.0.0.5"`, `pid = "123"`, whose message is the stripped
text and whose timestamp and type are the event's originals; and any event
whose stripped message contains no `(pid=..., ip=...)` substring stores
nothing — the error map is left unchanged. -/
theorem error_relay_extraction :
    (∀ (ts : Int) (ty : String),
      update_error_info_step []
          ⟨"\x1b[31mFailure (pid=123, ip=10.0.0.5) happened\x1b[0m", ts, ty⟩ =
        [("10.0.0.5",
          [("123", [⟨"Failure (pid=123, ip=10.0.0.5) happened", ts, ty⟩])])]) ∧
      ∀ (store : ErrStore) (e : ErrorData),
        searchPidIp (stripAnsi e.error_message).data = none →
        update_error_info_step store e = store := by
  constructor
  · intro ts ty
    rfl
  · intro store e h
    simp [update_error_info_step, h]

/-- C8 witness: a message without the pattern (`"hello"`) leaves a non-empty
error store untouched. -/
theorem error_relay_extraction_witness :
    update_error_info_step [("ip0", [("1", [⟨"old", 0, "t"⟩])])] ⟨"hello", 3, "warn"⟩ =
      [("ip0", [("1", [⟨"old", 0, "t"⟩])])] :=
  error_relay_extraction.2 [("ip0", [("1", [⟨"old", 0, "t"⟩])])] ⟨"hello", 3, "warn"⟩
    (by decide)

end RayStats
